import Mathlib

/-!
Verification of the configuration types module of the pubsub_v1 client
(google/cloud/pubsub_v1/types.py) and of the publish-side batching
aggregator and subscribe-side flow-controlled receiver that those
configuration records parameterize.

Numeric conventions of the embedding: Python integers are Int, Python
numeric literals written with a decimal point (0.05, 0.8, 0.01) are exact
rationals Rat, byte sizes and counts of concrete messages are Nat, and
event times are Rat.  A Python call that can raise is embedded as a
function into Except.
-/

namespace Pubsub

/-- Error kind for an invalid configuration value detected at
construction. -/
inductive ConfigurationError where
  | invalidValue : String → ConfigurationError
deriving DecidableEq, Repr

/-- The settings for batch publishing the messages: the namedtuple
BatchSettings with its fields in source order max_bytes, max_latency,
max_messages. -/
structure BatchSettings where
  max_bytes : Int
  max_latency : Rat
  max_messages : Int
deriving DecidableEq, Repr

/-- The defaults tuple installed as BatchSettings.__new__.__defaults__:
max_bytes = 1000 * 1000 * 10, max_latency = 0.05 seconds,
max_messages = 1000. -/
def batchSettingsDefaults : BatchSettings :=
  ⟨1000 * 1000 * 10, 0.05, 1000⟩

/-- One keyword call BatchSettings(...): an argument that is not passed
takes its value from the defaults tuple.  The source namedtuple
constructor stores the arguments verbatim and performs no validation, so
the call always returns a record; the Except result type records that no
ConfigurationError raise happens on any input. -/
def BatchSettings.make (max_bytes : Option Int) (max_latency : Option Rat)
    (max_messages : Option Int) : Except ConfigurationError BatchSettings :=
  Except.ok
    ⟨max_bytes.getD batchSettingsDefaults.max_bytes,
     max_latency.getD batchSettingsDefaults.max_latency,
     max_messages.getD batchSettingsDefaults.max_messages⟩

/-- The settings for controlling the rate at which messages are pulled:
the namedtuple FlowControl with its fields in source order. -/
structure FlowControl where
  max_bytes : Int
  max_messages : Int
  resume_threshold : Rat
  max_requests : Int
  max_request_batch_size : Int
  max_request_batch_latency : Rat
  max_lease_duration : Int
deriving DecidableEq, Repr

/-- The defaults tuple installed as FlowControl.__new__.__defaults__:
max_bytes = 100 * 1024 * 1024, max_messages = 100,
resume_threshold = 0.8, max_requests = 100, max_request_batch_size = 100,
max_request_batch_latency = 0.01, max_lease_duration = 2 * 60 * 60. -/
def flowControlDefaults : FlowControl :=
  ⟨100 * 1024 * 1024, 100, 0.8, 100, 100, 0.01, 2 * 60 * 60⟩

/-- One keyword call FlowControl(...): an argument that is not passed
takes its value from the defaults tuple.  As for BatchSettings, the
namedtuple constructor stores the arguments verbatim and performs no
validation, so the call always returns a record and never raises. -/
def FlowControl.make (max_bytes : Option Int) (max_messages : Option Int)
    (resume_threshold : Option Rat) (max_requests : Option Int)
    (max_request_batch_size : Option Int)
    (max_request_batch_latency : Option Rat)
    (max_lease_duration : Option Int) :
    Except ConfigurationError FlowControl :=
  Except.ok
    ⟨max_bytes.getD flowControlDefaults.max_bytes,
     max_messages.getD flowControlDefaults.max_messages,
     resume_threshold.getD flowControlDefaults.resume_threshold,
     max_requests.getD flowControlDefaults.max_requests,
     max_request_batch_size.getD flowControlDefaults.max_request_batch_size,
     max_request_batch_latency.getD flowControlDefaults.max_request_batch_latency,
     max_lease_duration.getD flowControlDefaults.max_lease_duration⟩

/-- A Python value held in a settings field. -/
inductive PyValue where
  | int : Int → PyValue
  | num : Rat → PyValue
deriving DecidableEq, Repr

/-- The attribute names of a BatchSettings record. -/
inductive BatchField where
  | max_bytes | max_latency | max_messages
deriving DecidableEq, Repr

/-- Reading an attribute of a BatchSettings record. -/
def BatchSettings.readField (r : BatchSettings) : BatchField → PyValue
  | BatchField.max_bytes => PyValue.int r.max_bytes
  | BatchField.max_latency => PyValue.num r.max_latency
  | BatchField.max_messages => PyValue.int r.max_messages

/-- The attribute names of a FlowControl record. -/
inductive FlowField where
  | max_bytes | max_messages | resume_threshold | max_requests
  | max_request_batch_size | max_request_batch_latency | max_lease_duration
deriving DecidableEq, Repr

/-- Reading an attribute of a FlowControl record. -/
def FlowControl.readField (r : FlowControl) : FlowField → PyValue
  | FlowField.max_bytes => PyValue.int r.max_bytes
  | FlowField.max_messages => PyValue.int r.max_messages
  | FlowField.resume_threshold => PyValue.num r.resume_threshold
  | FlowField.max_requests => PyValue.int r.max_requests
  | FlowField.max_request_batch_size => PyValue.int r.max_request_batch_size
  | FlowField.max_request_batch_latency => PyValue.num r.max_request_batch_latency
  | FlowField.max_lease_duration => PyValue.int r.max_lease_duration

/-- An operation the module lets a holder of a BatchSettings record
perform on it: read an attribute, or attempt an attribute assignment. -/
inductive BatchOp where
  | read : BatchField → BatchOp
  | assign : BatchField → PyValue → BatchOp
deriving DecidableEq, Repr

/-- An operation the module lets a holder of a FlowControl record
perform on it. -/
inductive FlowOp where
  | read : FlowField → FlowOp
  | assign : FlowField → PyValue → FlowOp
deriving DecidableEq, Repr

/-- Applying one operation to a BatchSettings record, returning the
operation result together with the record afterwards.  A namedtuple
instance is a tuple, and attribute assignment on a tuple raises
AttributeError and leaves the tuple untouched. -/
def BatchSettings.applyOp (r : BatchSettings) :
    BatchOp → Except String PyValue × BatchSettings
  | BatchOp.read f => (Except.ok (r.readField f), r)
  | BatchOp.assign _ _ => (Except.error "cannot set attribute", r)

/-- Applying one operation to a FlowControl record; attribute assignment
raises AttributeError and leaves the record untouched. -/
def FlowControl.applyOp (r : FlowControl) :
    FlowOp → Except String PyValue × FlowControl
  | FlowOp.read f => (Except.ok (r.readField f), r)
  | FlowOp.assign _ _ => (Except.error "cannot set attribute", r)

/-- The record that remains after a sequence of operations on a
BatchSettings record. -/
def BatchSettings.afterOps (r : BatchSettings) (ops : List BatchOp) :
    BatchSettings :=
  ops.foldl (fun s op => (s.applyOp op).2) r

/-- The record that remains after a sequence of operations on a
FlowControl record. -/
def FlowControl.afterOps (r : FlowControl) (ops : List FlowOp) :
    FlowControl :=
  ops.foldl (fun s op => (s.applyOp op).2) r

/-- The export names list built by the module body: it starts as
["BatchSettings", "FlowControl"] and is extended with every message name
harvested from the shared protobuf modules and then with every message
name harvested from pubsub_pb2.  The two harvested name lists are
parameters of the embedding because the generated protobuf modules live
outside this repository. -/
def moduleExportNames (sharedNames localNames : List String) : List String :=
  ["BatchSettings", "FlowControl"] ++ sharedNames ++ localNames

/-- The module attribute __all__ = tuple(sorted(names)): the export names
in ascending lexicographic string order. -/
def dunderAll (sharedNames localNames : List String) : List String :=
  List.insertionSort (· ≤ ·) (moduleExportNames sharedNames localNames)

/-- Positional construction of BatchSettings: the namedtuple field_names
list fixes the positional order (max_bytes, max_latency, max_messages). -/
def BatchSettings.ofTuple : Int × Rat × Int → BatchSettings :=
  fun p => ⟨p.1, p.2.1, p.2.2⟩

/-- The underlying tuple of a BatchSettings record, in field order. -/
def BatchSettings.toTuple (r : BatchSettings) : Int × Rat × Int :=
  (r.max_bytes, r.max_latency, r.max_messages)

/-- Positional construction of FlowControl: the namedtuple field_names
list fixes the positional order (max_bytes, max_messages,
resume_threshold, max_requests, max_request_batch_size,
max_request_batch_latency, max_lease_duration). -/
def FlowControl.ofTuple :
    Int × Int × Rat × Int × Int × Rat × Int → FlowControl :=
  fun p => ⟨p.1, p.2.1, p.2.2.1, p.2.2.2.1, p.2.2.2.2.1, p.2.2.2.2.2.1,
    p.2.2.2.2.2.2⟩

/-- The underlying tuple of a FlowControl record, in field order. -/
def FlowControl.toTuple (r : FlowControl) :
    Int × Int × Rat × Int × Int × Rat × Int :=
  (r.max_bytes, r.max_messages, r.resume_threshold, r.max_requests,
   r.max_request_batch_size, r.max_request_batch_latency,
   r.max_lease_duration)

/-- Modelled from the spec: the mutable accumulation unit of the batching
aggregator (the aggregator itself is not part of this repository, only
the BatchSettings record that parameterizes it is).  A live batch keeps
its message count, running byte total and the time of its first
message. -/
structure Batch where
  count : Nat
  bytes : Nat
  firstTime : Rat
deriving DecidableEq, Repr

/-- A flush emitted by the aggregator: the flushed batch counters, its
first-message time, the time at which the flush happens, and, for a flush
forced by an incoming message that could not be appended, the size of
that pending message. -/
structure Flush where
  count : Nat
  bytes : Nat
  firstTime : Rat
  time : Rat
  pending : Option Nat
deriving DecidableEq, Repr

/-- Modelled from the spec: starting a fresh batch with one message of s
bytes at time t.  If that single message already reaches max_bytes (an
oversized singleton) or max_messages, the batch of one is flushed at
once, never starved. -/
def startBatch (cfg : BatchSettings) (t : Rat) (s : Nat) :
    Option Batch × List Flush :=
  if cfg.max_bytes ≤ ((s : Nat) : Int)
      ∨ cfg.max_messages ≤ ((1 : Nat) : Int)
  then (none, [⟨1, s, t, t, none⟩])
  else (some ⟨1, s, t⟩, [])

/-- Modelled from the spec: appending a message of s bytes to the live
batch at time t.  If the batch thereby reaches max_bytes or
max_messages, it is flushed at once with the message inside. -/
def appendExisting (cfg : BatchSettings) (b : Batch) (t : Rat) (s : Nat) :
    Option Batch × List Flush :=
  if cfg.max_bytes ≤ ((b.bytes + s : Nat) : Int)
      ∨ cfg.max_messages ≤ ((b.count + 1 : Nat) : Int)
  then (none, [⟨b.count + 1, b.bytes + s, b.firstTime, t, none⟩])
  else (some ⟨b.count + 1, b.bytes + s, b.firstTime⟩, [])

/-- Modelled from the spec: one submit(topic, message) step of the
batching aggregator for a single topic, at time t with a message of s
bytes.  First the latency timer is serviced; then, if appending the
message would reach or exceed max_bytes, the current batch is flushed
without it and the message starts a fresh batch; otherwise the message
is appended, flushing at once if a threshold is thereby reached. -/
def submitStep (cfg : BatchSettings) (st : Option Batch) (t : Rat)
    (s : Nat) : Option Batch × List Flush :=
  match st with
  | none => startBatch cfg t s
  | some b =>
    if b.firstTime + cfg.max_latency ≤ t then
      let r := startBatch cfg t s
      (r.1, ⟨b.count, b.bytes, b.firstTime, b.firstTime + cfg.max_latency,
        none⟩ :: r.2)
    else if cfg.max_bytes ≤ (b.bytes : Int) + (s : Int) then
      let r := startBatch cfg t s
      (r.1, ⟨b.count, b.bytes, b.firstTime, t, some s⟩ :: r.2)
    else appendExisting cfg b t s

/-- Modelled from the spec: running the aggregator over a time-ordered
sequence of submits, threading the live batch and collecting every
flush. -/
def runAgg (cfg : BatchSettings) (st : Option Batch)
    (subs : List (Rat × Nat)) : Option Batch × List Flush :=
  match subs with
  | [] => (st, [])
  | p :: rest =>
    let r := submitStep cfg st p.1 p.2
    let r2 := runAgg cfg r.1 rest
    (r2.1, r.2 ++ r2.2)

/-- Modelled from the spec: at the end of the trace the latency timer of
a still-live batch fires at firstTime + max_latency and flushes it, so no
batch is ever held beyond its deadline. -/
def closeAgg (cfg : BatchSettings) (st : Option Batch) : List Flush :=
  match st with
  | none => []
  | some b =>
    [⟨b.count, b.bytes, b.firstTime, b.firstTime + cfg.max_latency, none⟩]

/-- The whole flush trace of one topic for a submit sequence, starting
from an empty aggregator and closing the trace with the final timer
fire. -/
def aggTrace (cfg : BatchSettings) (subs : List (Rat × Nat)) : List Flush :=
  (runAgg cfg none subs).2 ++ closeAgg cfg (runAgg cfg none subs).1

/-- A flush is justified exactly by one of the three thresholds: the
cumulative bytes counting a pending trigger message reach max_bytes, the
message count reaches max_messages, or the flush happens exactly at the
latency deadline of the first message; and it is never late, happening
at or after the first message and no later than that deadline. -/
def flushOk (cfg : BatchSettings) (f : Flush) : Prop :=
  (cfg.max_bytes ≤ (f.bytes : Int) + ((f.pending.getD 0 : Nat) : Int)
    ∨ cfg.max_messages ≤ (f.count : Int)
    ∨ f.time = f.firstTime + cfg.max_latency)
  ∧ f.firstTime ≤ f.time
  ∧ f.time ≤ f.firstTime + cfg.max_latency

/-- The live batch is strictly below both thresholds (otherwise it would
already have been flushed) and its first message is no later than every
remaining submit time. -/
def batchOkFor (cfg : BatchSettings) (subs : List (Rat × Nat)) :
    Option Batch → Prop
  | none => True
  | some b =>
    (b.bytes : Int) < cfg.max_bytes ∧ (b.count : Int) < cfg.max_messages
      ∧ ∀ p ∈ subs, b.firstTime ≤ p.1

/-- Modelled from the spec: the flow controller state shared by the
receiver and the lease manager (neither engine is part of this
repository; only the FlowControl record that parameterizes them is).
It holds the outstanding messages as (ack id, byte size) pairs, the two
outstanding counters, and the paused flag of the {RESUMED, PAUSED} state
machine, with RESUMED encoded as paused = false. -/
structure FlowState where
  outstanding : List (Nat × Nat)
  bytes : Int
  msgs : Int
  paused : Bool
deriving DecidableEq, Repr

/-- The initial receiver state: nothing outstanding, RESUMED. -/
def initialFlowState : FlowState := ⟨[], 0, 0, false⟩

/-- An event processed by the flow-controlled receiver: the transport
delivers a message for admission, or an ack, nack or lease expiry
releases an outstanding message. -/
inductive FlowEvent where
  | deliver : Nat → Nat → FlowEvent
  | release : Nat → FlowEvent
deriving DecidableEq, Repr

/-- The total byte size of a list of outstanding messages. -/
def sumSizes (l : List (Nat × Nat)) : Int :=
  ((l.map fun p => p.2).sum : Nat)

/-- Removing the first outstanding entry with the given ack id. -/
def removeFirst (l : List (Nat × Nat)) (id : Nat) : List (Nat × Nat) :=
  match l with
  | [] => []
  | p :: rest => if p.1 = id then rest else p :: removeFirst rest id

/-- The byte size recorded for the first outstanding entry with the given
ack id, if any. -/
def lookupSize (l : List (Nat × Nat)) (id : Nat) : Option Nat :=
  match l with
  | [] => none
  | p :: rest => if p.1 = id then some p.2 else lookupSize rest id

/-- Both outstanding counters are at or below their resume thresholds
resume_threshold * max_bytes and resume_threshold * max_messages. -/
def resumeOk (cfg : FlowControl) (bytes msgs : Int) : Prop :=
  (bytes : Rat) ≤ cfg.resume_threshold * (cfg.max_bytes : Rat)
    ∧ (msgs : Rat) ≤ cfg.resume_threshold * (cfg.max_messages : Rat)

instance (cfg : FlowControl) (bytes msgs : Int) :
    Decidable (resumeOk cfg bytes msgs) :=
  inferInstanceAs (Decidable
    ((bytes : Rat) ≤ cfg.resume_threshold * (cfg.max_bytes : Rat)
      ∧ (msgs : Rat) ≤ cfg.resume_threshold * (cfg.max_messages : Rat)))

/-- Modelled from the spec: one step of the flow-controlled receiver.
While paused the receiver does not pull, so a delivery is not admitted.
A delivery that would push either counter beyond its hard maximum is
refused and pauses the stream; an admitted delivery increments both
counters and pauses the stream if either counter has reached its
maximum.  A release with an outstanding ack id decrements both counters,
and, if the receiver is paused and both counters are now at or below
their resume thresholds simultaneously, resumes it; a release with an
unknown ack id is ignored, so capacity is released at most once per
message. -/
def flowStep (cfg : FlowControl) (s : FlowState) : FlowEvent → FlowState
  | FlowEvent.deliver id size =>
    if s.paused then s
    else if cfg.max_bytes < s.bytes + (size : Int)
        ∨ cfg.max_messages < s.msgs + 1 then
      ⟨s.outstanding, s.bytes, s.msgs, true⟩
    else
      ⟨(id, size) :: s.outstanding, s.bytes + (size : Int), s.msgs + 1,
        decide (cfg.max_bytes ≤ s.bytes + (size : Int)
          ∨ cfg.max_messages ≤ s.msgs + 1)⟩
  | FlowEvent.release id =>
    match lookupSize s.outstanding id with
    | none => s
    | some size =>
      ⟨removeFirst s.outstanding id, s.bytes - (size : Int), s.msgs - 1,
        s.paused && !decide
          (resumeOk cfg (s.bytes - (size : Int)) (s.msgs - 1))⟩

/-- Modelled from the spec: the receiver state after a sequence of
admission and release events, starting from the initial state. -/
def runFlow (cfg : FlowControl) (evs : List FlowEvent) : FlowState :=
  evs.foldl (flowStep cfg) initialFlowState

/-- The flow-control counters are consistent with the outstanding list:
bytes is the total outstanding size and msgs the outstanding count. -/
def flowCountersExact (s : FlowState) : Prop :=
  s.bytes = sumSizes s.outstanding ∧ s.msgs = (s.outstanding.length : Int)

/-- The flow-control counters are within bounds: never negative and
never above the configured maxima. -/
def flowBounds (cfg : FlowControl) (s : FlowState) : Prop :=
  0 ≤ s.bytes ∧ s.bytes ≤ cfg.max_bytes
    ∧ 0 ≤ s.msgs ∧ s.msgs ≤ cfg.max_messages

/-- The batch settings of the boundary scenario from the spec:
max_bytes = 300, max_latency = 60 seconds, max_messages = 1000. -/
def scenarioBatchSettings : BatchSettings := ⟨300, 60, 1000⟩

/-- Three 100-byte messages submitted at time 0 to one topic. -/
def scenarioSubmits : List (Rat × Nat) := [(0, 100), (0, 100), (0, 100)]

/-- The flow-control settings of the pause and resume scenario from the
spec: max_messages = 10, resume_threshold = 0.8, other fields default. -/
def scenarioFlowControl : FlowControl :=
  ⟨104857600, 10, 0.8, 100, 100, 0.01, 7200⟩

/-- A paused receiver state with ten outstanding one-byte messages. -/
def pausedTenState : FlowState :=
  ⟨[(1, 1), (2, 1), (3, 1), (4, 1), (5, 1), (6, 1), (7, 1), (8, 1),
    (9, 1), (10, 1)], 10, 10, true⟩

/-- Applying any single operation to a BatchSettings record leaves the
record unchanged. -/
lemma batchSettings_applyOp_snd (r : BatchSettings) (op : BatchOp) :
    (r.applyOp op).2 = r := by
  cases op <;> rfl

/-- Applying any single operation to a FlowControl record leaves the
record unchanged. -/
lemma flowControl_applyOp_snd (r : FlowControl) (op : FlowOp) :
    (r.applyOp op).2 = r := by
  cases op <;> rfl

/-- C2: BatchSettings constructed with no arguments has exactly the
defaults max_bytes = 10000000, max_latency = 0.05 seconds and
max_messages = 1000. -/
theorem batchSettings_default_values :
    BatchSettings.make none none none
      = Except.ok (⟨10000000, 0.05, 1000⟩ : BatchSettings) := by
  rfl

/-- C3: FlowControl constructed with no arguments has exactly the
defaults max_bytes = 104857600 bytes (100 MiB), max_messages = 100,
resume_threshold = 0.8, max_requests = 100, max_request_batch_size = 100,
max_request_batch_latency = 0.01 seconds and max_lease_duration = 7200
seconds. -/
theorem flowControl_default_values :
    FlowControl.make none none none none none none none
      = Except.ok
          (⟨104857600, 100, 0.8, 100, 100, 0.01, 7200⟩ : FlowControl) := by
  rfl

/-- C1 counterexample: constructing BatchSettings with the invalid value
max_bytes = 0 (a non-positive size) and FlowControl with the invalid
value resume_threshold = 2 (outside the interval (0,1]) both succeed,
returning records that store the invalid values; no ConfigurationError is
raised. -/
theorem invalid_construction_returns_record :
    BatchSettings.make (some 0) none none
        = Except.ok (⟨0, 0.05, 1000⟩ : BatchSettings)
      ∧ (BatchSettings.make (some 0) none none).isOk = true
      ∧ FlowControl.make none none (some 2) none none none none
        = Except.ok (⟨104857600, 100, 2, 100, 100, 0.01, 7200⟩ : FlowControl)
      ∧ (FlowControl.make none none (some 2) none none none none).isOk
        = true := by
  exact ⟨rfl, rfl, rfl, rfl⟩

/-- C1 (amended): construction performs no validation.  For every
argument tuple, valid or invalid, BatchSettings(...) and FlowControl(...)
return the record holding exactly the given values and never raise a
ConfigurationError. -/
theorem construction_never_raises (a : Int) (l : Rat) (m : Int)
    (fb fm : Int) (rt : Rat) (mr mbs : Int) (mbl : Rat) (mld : Int) :
    BatchSettings.make (some a) (some l) (some m)
        = Except.ok (⟨a, l, m⟩ : BatchSettings)
      ∧ FlowControl.make (some fb) (some fm) (some rt) (some mr)
          (some mbs) (some mbl) (some mld)
        = Except.ok (⟨fb, fm, rt, mr, mbs, mbl, mld⟩ : FlowControl) := by
  exact ⟨rfl, rfl⟩

/-- C4: every field of BatchSettings and of FlowControl is independently
overridable at construction time; overriding one field by keyword leaves
every other field at its default. -/
theorem fields_independently_overridable (v : Int) (q : Rat) :
    BatchSettings.make (some v) none none
        = Except.ok (⟨v, 0.05, 1000⟩ : BatchSettings)
      ∧ BatchSettings.make none (some q) none
        = Except.ok (⟨10000000, q, 1000⟩ : BatchSettings)
      ∧ BatchSettings.make none none (some v)
        = Except.ok (⟨10000000, 0.05, v⟩ : BatchSettings)
      ∧ FlowControl.make (some v) none none none none none none
        = Except.ok
            (⟨v, 100, 0.8, 100, 100, 0.01, 7200⟩ : FlowControl)
      ∧ FlowControl.make none (some v) none none none none none
        = Except.ok
            (⟨104857600, v, 0.8, 100, 100, 0.01, 7200⟩ : FlowControl)
      ∧ FlowControl.make none none (some q) none none none none
        = Except.ok
            (⟨104857600, 100, q, 100, 100, 0.01, 7200⟩ : FlowControl)
      ∧ FlowControl.make none none none (some v) none none none
        = Except.ok
            (⟨104857600, 100, 0.8, v, 100, 0.01, 7200⟩ : FlowControl)
      ∧ FlowControl.make none none none none (some v) none none
        = Except.ok
            (⟨104857600, 100, 0.8, 100, v, 0.01, 7200⟩ : FlowControl)
      ∧ FlowControl.make none none none none none (some q) none
        = Except.ok
            (⟨104857600, 100, 0.8, 100, 100, q, 7200⟩ : FlowControl)
      ∧ FlowControl.make none none none none none none (some v)
        = Except.ok
            (⟨104857600, 100, 0.8, 100, 100, 0.01, v⟩ : FlowControl) := by
  exact ⟨rfl, rfl, rfl, rfl, rfl, rfl, rfl, rfl, rfl, rfl⟩

/-- C5: BatchSettings and FlowControl records are immutable after
construction: attribute assignment always raises and no operation
sequence changes a record, so reading any field later yields the value it
had at construction. -/
theorem settings_records_immutable (r : BatchSettings) (ops : List BatchOp)
    (f : BatchField) (v : PyValue) (r2 : FlowControl)
    (ops2 : List FlowOp) (f2 : FlowField) :
    BatchSettings.afterOps r ops = r
      ∧ r.applyOp (BatchOp.assign f v)
        = (Except.error "cannot set attribute", r)
      ∧ (BatchSettings.afterOps r ops).readField f = r.readField f
      ∧ FlowControl.afterOps r2 ops2 = r2
      ∧ r2.applyOp (FlowOp.assign f2 v)
        = (Except.error "cannot set attribute", r2)
      ∧ (FlowControl.afterOps r2 ops2).readField f2 = r2.readField f2 := by
  have h1 : BatchSettings.afterOps r ops = r :=
    List.foldl_fixed' (fun op => batchSettings_applyOp_snd r op) ops
  have h2 : FlowControl.afterOps r2 ops2 = r2 :=
    List.foldl_fixed' (fun op => flowControl_applyOp_snd r2 op) ops2
  exact ⟨h1, rfl, by rw [h1], h2, rfl, by rw [h2]⟩

/-- C9: __all__ is sorted in ascending lexicographic order and is a
permutation of the names list, which consists of exactly BatchSettings,
FlowControl, the harvested shared-module message names and the harvested
pubsub_pb2 message names; in particular it contains BatchSettings and
FlowControl. -/
theorem dunderAll_sorted_exports (sharedNames localNames : List String) :
    List.Sorted (· ≤ ·) (dunderAll sharedNames localNames)
      ∧ List.Perm (dunderAll sharedNames localNames)
          ("BatchSettings" :: "FlowControl" :: (sharedNames ++ localNames))
      ∧ "BatchSettings" ∈ dunderAll sharedNames localNames
      ∧ "FlowControl" ∈ dunderAll sharedNames localNames := by
  have hperm :
      List.Perm (dunderAll sharedNames localNames)
        ("BatchSettings" :: "FlowControl" :: (sharedNames ++ localNames)) :=
    List.perm_insertionSort (· ≤ ·) (moduleExportNames sharedNames localNames)
  refine ⟨List.sorted_insertionSort (· ≤ ·) _, hperm, ?_, ?_⟩
  · exact hperm.mem_iff.mpr (List.mem_cons_self _ _)
  · exact hperm.mem_iff.mpr
      (List.mem_cons_of_mem _ (List.mem_cons_self _ _))

/-- C10: BatchSettings and FlowControl have tuple value semantics with
the fixed positional field orders (max_bytes, max_latency, max_messages)
and (max_bytes, max_messages, resume_threshold, max_requests,
max_request_batch_size, max_request_batch_latency, max_lease_duration),
and two records of the same type agree exactly when their underlying
tuples agree, so equal field values give equal records. -/
theorem tuple_value_semantics (a : Int) (l : Rat) (m : Int)
    (b1 b2 : Int) (b3 : Rat) (b4 b5 : Int) (b6 : Rat) (b7 : Int)
    (r s : BatchSettings) (r2 s2 : FlowControl) :
    (BatchSettings.ofTuple (a, l, m)).max_bytes = a
      ∧ (BatchSettings.ofTuple (a, l, m)).max_latency = l
      ∧ (BatchSettings.ofTuple (a, l, m)).max_messages = m
      ∧ (BatchSettings.ofTuple (a, l, m)).toTuple = (a, l, m)
      ∧ (r = s ↔ r.toTuple = s.toTuple)
      ∧ (FlowControl.ofTuple (b1, b2, b3, b4, b5, b6, b7)).toTuple
        = (b1, b2, b3, b4, b5, b6, b7)
      ∧ (FlowControl.ofTuple (b1, b2, b3, b4, b5, b6, b7)).max_bytes = b1
      ∧ (FlowControl.ofTuple (b1, b2, b3, b4, b5, b6, b7)).max_lease_duration
        = b7
      ∧ (r2 = s2 ↔ r2.toTuple = s2.toTuple) := by
  refine ⟨rfl, rfl, rfl, rfl, ?_, rfl, rfl, rfl, ?_⟩
  · constructor
    · intro h; rw [h]
    · intro h
      cases r; cases s
      simp only [BatchSettings.toTuple, Prod.mk.injEq] at h
      simp [h.1, h.2.1, h.2.2]
  · constructor
    · intro h; rw [h]
    · intro h
      cases r2; cases s2
      simp only [FlowControl.toTuple, Prod.mk.injEq] at h
      simp [h.1, h.2.1, h.2.2.1, h.2.2.2.1, h.2.2.2.2.1, h.2.2.2.2.2.1,
        h.2.2.2.2.2.2]

/-- The outstanding byte total is never negative. -/
lemma sumSizes_nonneg (l : List (Nat × Nat)) : 0 ≤ sumSizes l :=
  Int.natCast_nonneg _

/-- The outstanding byte total of a cons. -/
lemma sumSizes_cons (p : Nat × Nat) (l : List (Nat × Nat)) :
    sumSizes (p :: l) = (p.2 : Int) + sumSizes l := by
  simp [sumSizes]

/-- Releasing a looked-up ack id removes exactly its size and one
entry. -/
lemma lookupSize_remove (l : List (Nat × Nat)) (id size : Nat)
    (h : lookupSize l id = some size) :
    sumSizes l = (size : Int) + sumSizes (removeFirst l id)
      ∧ (l.length : Int) = 1 + ((removeFirst l id).length : Int) := by
  induction l with
  | nil => simp [lookupSize] at h
  | cons p rest ih =>
    have hrm : removeFirst (p :: rest) id
        = if p.1 = id then rest else p :: removeFirst rest id := rfl
    have hlk : lookupSize (p :: rest) id
        = if p.1 = id then some p.2 else lookupSize rest id := rfl
    by_cases hp : p.1 = id
    · rw [hlk, if_pos hp] at h
      rw [hrm, if_pos hp]
      obtain rfl : p.2 = size := Option.some.inj h
      refine ⟨by rw [sumSizes_cons], ?_⟩
      rw [List.length_cons]
      push_cast
      ring
    · rw [hlk, if_neg hp] at h
      obtain ⟨h1, h2⟩ := ih h
      rw [hrm, if_neg hp]
      refine ⟨?_, ?_⟩
      · rw [sumSizes_cons, sumSizes_cons, h1]
        ring
      · rw [List.length_cons, List.length_cons]
        push_cast
        omega

/-- One receiver step preserves counter exactness and the bounds. -/
lemma flowStep_inv (cfg : FlowControl) (s : FlowState) (e : FlowEvent)
    (h : flowCountersExact s ∧ flowBounds cfg s) :
    flowCountersExact (flowStep cfg s e)
      ∧ flowBounds cfg (flowStep cfg s e) := by
  obtain ⟨⟨hb, hm⟩, hb0, hbM, hm0, hmM⟩ := h
  cases e with
  | deliver id size =>
    simp only [flowStep]
    split_ifs with hp hover
    · exact ⟨⟨hb, hm⟩, hb0, hbM, hm0, hmM⟩
    · exact ⟨⟨hb, hm⟩, hb0, hbM, hm0, hmM⟩
    · push_neg at hover
      refine ⟨⟨?_, ?_⟩, ?_, ?_, ?_, ?_⟩
      · show s.bytes + (size : Int) = sumSizes ((id, size) :: s.outstanding)
        rw [sumSizes_cons, hb]
        linarith
      · show s.msgs + 1 = (((id, size) :: s.outstanding).length : Int)
        rw [List.length_cons, hm]
        push_cast
        linarith
      · show 0 ≤ s.bytes + (size : Int)
        omega
      · exact hover.1
      · show 0 ≤ s.msgs + 1
        omega
      · exact hover.2
  | release id =>
    simp only [flowStep]
    split
    · exact ⟨⟨hb, hm⟩, hb0, hbM, hm0, hmM⟩
    · rename_i size hlk
      obtain ⟨hsum, hlen⟩ := lookupSize_remove s.outstanding id size hlk
      have hrm0 : 0 ≤ sumSizes (removeFirst s.outstanding id) :=
        sumSizes_nonneg _
      refine ⟨⟨?_, ?_⟩, ?_, ?_, ?_, ?_⟩
      · show s.bytes - (size : Int) = sumSizes (removeFirst s.outstanding id)
        rw [hb, hsum]
        linarith
      · show s.msgs - 1 = ((removeFirst s.outstanding id).length : Int)
        rw [hm, hlen]
        linarith
      · show 0 ≤ s.bytes - (size : Int)
        rw [hb, hsum]
        omega
      · show s.bytes - (size : Int) ≤ cfg.max_bytes
        omega
      · show 0 ≤ s.msgs - 1
        rw [hm, hlen]
        have : (0 : Int) ≤ ((removeFirst s.outstanding id).length : Int) :=
          Int.natCast_nonneg _
        omega
      · show s.msgs - 1 ≤ cfg.max_messages
        omega

/-- The receiver invariant holds along any event fold. -/
lemma foldl_flow_inv (cfg : FlowControl) :
    ∀ (evs : List FlowEvent) (s : FlowState),
      flowCountersExact s ∧ flowBounds cfg s →
      flowCountersExact (evs.foldl (flowStep cfg) s)
        ∧ flowBounds cfg (evs.foldl (flowStep cfg) s)
  | [], _, h => h
  | e :: evs, s, h => foldl_flow_inv cfg evs _ (flowStep_inv cfg s e h)

/-- C7: for every sequence of admissions and releases processed by the
flow-controlled receiver, the outstanding byte and message counters never
go negative and never exceed the configured max_bytes and
max_messages. -/
theorem flow_counters_bounded (cfg : FlowControl) (evs : List FlowEvent)
    (hB : 0 ≤ cfg.max_bytes) (hM : 0 ≤ cfg.max_messages) :
    flowBounds cfg (runFlow cfg evs) := by
  have hinit : flowCountersExact initialFlowState
      ∧ flowBounds cfg initialFlowState :=
    ⟨⟨rfl, rfl⟩, le_refl 0, hB, le_refl 0, hM⟩
  exact (foldl_flow_inv cfg evs initialFlowState hinit).2

/-- C7 witness: the bounds hold concretely for the default flow control
after admitting two messages and releasing one. -/
theorem flow_counters_bounded_witness :
    (0 : Int) ≤ flowControlDefaults.max_bytes
      ∧ (0 : Int) ≤ flowControlDefaults.max_messages
      ∧ flowBounds flowControlDefaults
          (runFlow flowControlDefaults
            [FlowEvent.deliver 1 3, FlowEvent.deliver 2 5, FlowEvent.release 1]) :=
  ⟨by decide, by decide,
    flow_counters_bounded flowControlDefaults
      [FlowEvent.deliver 1 3, FlowEvent.deliver 2 5, FlowEvent.release 1]
      (by decide) (by decide)⟩

/-- C8: a PAUSED receiver becomes RESUMED on a step only if after the
step both the outstanding byte counter is at most
resume_threshold * max_bytes and the outstanding message counter is at
most resume_threshold * max_messages simultaneously; when the two
counters are not both at or below their thresholds, it stays PAUSED. -/
theorem flow_resume_requires_both (cfg : FlowControl) (s : FlowState)
    (e : FlowEvent) (hp : s.paused = true) :
    ((flowStep cfg s e).paused = false →
        resumeOk cfg (flowStep cfg s e).bytes (flowStep cfg s e).msgs)
      ∧ (¬ resumeOk cfg (flowStep cfg s e).bytes (flowStep cfg s e).msgs →
        (flowStep cfg s e).paused = true) := by
  cases e with
  | deliver id size =>
    refine ⟨fun hfalse => ?_, fun _ => ?_⟩
    · rw [show flowStep cfg s (FlowEvent.deliver id size) = s from by
        simp [flowStep, hp], hp] at hfalse
      exact absurd hfalse (by simp)
    · rw [show flowStep cfg s (FlowEvent.deliver id size) = s from by
        simp [flowStep, hp]]
      exact hp
  | release id =>
    simp only [flowStep]
    split
    · refine ⟨fun hfalse => ?_, fun _ => hp⟩
      rw [hp] at hfalse
      exact absurd hfalse (by simp)
    · rename_i size hlk
      simp only [hp, Bool.true_and]
      constructor
      · intro hres
        simpa using hres
      · intro hnot
        simp [hnot]

/-- C8 witness: with max_messages = 10 and resume_threshold = 0.8, a
paused receiver with ten outstanding one-byte messages that releases one
message has nine outstanding, above the threshold of eight, and the
theorem applies to that state. -/
theorem flow_resume_requires_both_witness :
    pausedTenState.paused = true
      ∧ (((flowStep scenarioFlowControl pausedTenState
            (FlowEvent.release 1)).paused = false →
          resumeOk scenarioFlowControl
            (flowStep scenarioFlowControl pausedTenState
              (FlowEvent.release 1)).bytes
            (flowStep scenarioFlowControl pausedTenState
              (FlowEvent.release 1)).msgs)
        ∧ (¬ resumeOk scenarioFlowControl
            (flowStep scenarioFlowControl pausedTenState
              (FlowEvent.release 1)).bytes
            (flowStep scenarioFlowControl pausedTenState
              (FlowEvent.release 1)).msgs →
          (flowStep scenarioFlowControl pausedTenState
            (FlowEvent.release 1)).paused = true)) :=
  ⟨rfl, flow_resume_requires_both scenarioFlowControl pausedTenState
    (FlowEvent.release 1) rfl⟩

/-- Starting a fresh batch only emits justified, on-time flushes and
leaves a live batch strictly under both thresholds. -/
lemma startBatch_ok (cfg : BatchSettings) (hL : 0 < cfg.max_latency)
    (t : Rat) (s : Nat) (rest : List (Rat × Nat))
    (hrest : ∀ p ∈ rest, t ≤ p.1) :
    (∀ f ∈ (startBatch cfg t s).2, flushOk cfg f)
      ∧ batchOkFor cfg rest (startBatch cfg t s).1 := by
  unfold startBatch
  split_ifs with h
  · refine ⟨?_, trivial⟩
    intro f hf
    simp only [List.mem_singleton] at hf
    subst hf
    refine ⟨?_, le_refl t, by linarith⟩
    rcases h with h | h
    · left
      simpa using h
    · right
      left
      simpa using h
  · push_neg at h
    exact ⟨by simp, h.1, h.2, hrest⟩

/-- Appending to a live batch under its deadline only emits justified,
on-time flushes and keeps the live batch strictly under both
thresholds. -/
lemma appendExisting_ok (cfg : BatchSettings) (b : Batch) (t : Rat)
    (s : Nat) (rest : List (Rat × Nat)) (hft : b.firstTime ≤ t)
    (hdl : t < b.firstTime + cfg.max_latency)
    (htimes : ∀ p ∈ rest, b.firstTime ≤ p.1) :
    (∀ f ∈ (appendExisting cfg b t s).2, flushOk cfg f)
      ∧ batchOkFor cfg rest (appendExisting cfg b t s).1 := by
  unfold appendExisting
  split_ifs with h
  · refine ⟨?_, trivial⟩
    intro f hf
    simp only [List.mem_singleton] at hf
    subst hf
    refine ⟨?_, hft, le_of_lt hdl⟩
    rcases h with h | h
    · left
      push_cast at h ⊢
      linarith
    · right
      left
      push_cast at h ⊢
      linarith
  · push_neg at h
    refine ⟨by simp, ?_, ?_, htimes⟩
    · have := h.1
      push_cast at this ⊢
      linarith
    · have := h.2
      push_cast at this ⊢
      linarith

/-- One submit step, from a live state consistent with the remaining
submit times, only emits justified, on-time flushes and leaves a state
consistent with the rest. -/
lemma submitStep_ok (cfg : BatchSettings) (hL : 0 < cfg.max_latency)
    (st : Option Batch) (t : Rat) (s : Nat) (rest : List (Rat × Nat))
    (hst : batchOkFor cfg ((t, s) :: rest) st)
    (hrest : ∀ p ∈ rest, t ≤ p.1) :
    (∀ f ∈ (submitStep cfg st t s).2, flushOk cfg f)
      ∧ batchOkFor cfg rest (submitStep cfg st t s).1 := by
  cases st with
  | none => exact startBatch_ok cfg hL t s rest hrest
  | some b =>
    obtain ⟨hby, hct, htimes⟩ := hst
    have hft : b.firstTime ≤ t := htimes (t, s) (List.mem_cons_self _ _)
    have hstart := startBatch_ok cfg hL t s rest hrest
    simp only [submitStep]
    by_cases htimer : b.firstTime + cfg.max_latency ≤ t
    · rw [if_pos htimer]
      refine ⟨?_, hstart.2⟩
      intro f hf
      rcases List.mem_cons.mp hf with hf | hf
      · subst hf
        refine ⟨Or.inr (Or.inr rfl), ?_, le_refl _⟩
        show b.firstTime ≤ b.firstTime + cfg.max_latency
        linarith
      · exact hstart.1 f hf
    · rw [if_neg htimer]
      have hdl : t < b.firstTime + cfg.max_latency := lt_of_not_le htimer
      by_cases hpre : cfg.max_bytes ≤ (b.bytes : Int) + (s : Int)
      · rw [if_pos hpre]
        refine ⟨?_, hstart.2⟩
        intro f hf
        rcases List.mem_cons.mp hf with hf | hf
        · subst hf
          exact ⟨Or.inl hpre, hft, le_of_lt hdl⟩
        · exact hstart.1 f hf
      · rw [if_neg hpre]
        exact appendExisting_ok cfg b t s rest hft hdl
          (fun p hp => htimes p (List.mem_cons_of_mem _ hp))

/-- Along a time-sorted submit sequence the aggregator only emits
justified, on-time flushes, and the live batch stays strictly under both
thresholds. -/
lemma runAgg_ok (cfg : BatchSettings) (hL : 0 < cfg.max_latency)
    (subs : List (Rat × Nat)) :
    ∀ st : Option Batch, batchOkFor cfg subs st →
      List.Pairwise (fun a b : Rat × Nat => a.1 ≤ b.1) subs →
      (∀ f ∈ (runAgg cfg st subs).2, flushOk cfg f)
        ∧ batchOkFor cfg [] (runAgg cfg st subs).1 := by
  induction subs with
  | nil =>
    intro st hst _
    exact ⟨by simp [runAgg], hst⟩
  | cons p rest ih =>
    intro st hst hsort
    obtain ⟨hhd, htl⟩ := List.pairwise_cons.mp hsort
    have hstep := submitStep_ok cfg hL st p.1 p.2 rest hst hhd
    have hrec := ih (submitStep cfg st p.1 p.2).1 hstep.2 htl
    simp only [runAgg]
    refine ⟨?_, hrec.2⟩
    intro f hf
    rcases List.mem_append.mp hf with hf | hf
    · exact hstep.1 f hf
    · exact hrec.1 f hf

/-- The closing timer fire flushes the remaining batch exactly at its
latency deadline. -/
lemma closeAgg_ok (cfg : BatchSettings) (hL : 0 < cfg.max_latency)
    (st : Option Batch) : ∀ f ∈ closeAgg cfg st, flushOk cfg f := by
  cases st with
  | none => simp [closeAgg]
  | some b =>
    intro f hf
    simp only [closeAgg, List.mem_singleton] at hf
    subst hf
    refine ⟨Or.inr (Or.inr rfl), ?_, le_refl _⟩
    show b.firstTime ≤ b.firstTime + cfg.max_latency
    linarith

/-- C6: for every time-sorted sequence of submits to one topic under a
given BatchSettings with positive thresholds, every flush in the trace
is justified by cumulative bytes reaching max_bytes (counting a pending
trigger message), by the count reaching max_messages, or by happening
exactly at the latency deadline of the first message of the batch,
happening no earlier than the first message and never later than the
deadline; and a live batch is always strictly under both thresholds, so
no flush is ever late. -/
theorem batch_flush_exactly_when (cfg : BatchSettings)
    (subs : List (Rat × Nat)) (_hB : 0 < cfg.max_bytes)
    (_hM : 0 < cfg.max_messages) (hL : 0 < cfg.max_latency)
    (hsorted : List.Pairwise (fun a b : Rat × Nat => a.1 ≤ b.1) subs) :
    (∀ f ∈ aggTrace cfg subs, flushOk cfg f)
      ∧ ∀ b, (runAgg cfg none subs).1 = some b →
          (b.bytes : Int) < cfg.max_bytes
            ∧ (b.count : Int) < cfg.max_messages := by
  have h := runAgg_ok cfg hL subs none trivial hsorted
  constructor
  · intro f hf
    simp only [aggTrace] at hf
    rcases List.mem_append.mp hf with hf | hf
    · exact h.1 f hf
    · exact closeAgg_ok cfg hL _ f hf
  · intro b hb
    have h2 := h.2
    rw [hb] at h2
    obtain ⟨h21, h22, _⟩ := h2
    exact ⟨h21, h22⟩

/-- C6 witness: the spec boundary scenario max_bytes = 300,
max_latency = 60, max_messages = 1000 with three 100-byte submits at
time 0 satisfies the hypotheses, and the theorem applies to it. -/
theorem batch_flush_exactly_when_witness :
    (0 : Int) < scenarioBatchSettings.max_bytes
      ∧ (0 : Int) < scenarioBatchSettings.max_messages
      ∧ (0 : Rat) < scenarioBatchSettings.max_latency
      ∧ List.Pairwise (fun a b : Rat × Nat => a.1 ≤ b.1) scenarioSubmits
      ∧ ((∀ f ∈ aggTrace scenarioBatchSettings scenarioSubmits,
            flushOk scenarioBatchSettings f)
          ∧ ∀ b,
              (runAgg scenarioBatchSettings none scenarioSubmits).1 = some b →
              (b.bytes : Int) < scenarioBatchSettings.max_bytes
                ∧ (b.count : Int) < scenarioBatchSettings.max_messages) :=
  ⟨by decide, by decide, by decide, by decide,
    batch_flush_exactly_when scenarioBatchSettings scenarioSubmits
      (by decide) (by decide) (by decide) (by decide)⟩

/-- In the spec boundary scenario the third 100-byte submit triggers the
flush of the two-message 200-byte batch, carrying the pending 100-byte
trigger, and the third message starts a fresh batch flushed by the
closing timer at its deadline 60. -/
lemma aggTrace_scenario :
    aggTrace scenarioBatchSettings scenarioSubmits
      = [⟨2, 200, 0, 0, some 100⟩, ⟨1, 100, 0, 60, none⟩] := by
  norm_num [aggTrace, runAgg, submitStep, startBatch, appendExisting,
    closeAgg, scenarioBatchSettings, scenarioSubmits]

end Pubsub
